import Mathlib

/-!
Verification of the BGP neighbor-session check script
(`bgp_adjacencies/BGP_Neighbors_Established_Revised.py`).

The script has three stages:
* `CommonSetup.connect` — iterate the testbed inventory, `device.connect()`
  each device, append successes to `device_list`; on an exception call
  `self.failed(msg)`, which in the aetest framework raises a signal that
  terminates the subsection immediately.
* `BGPNeighborsEstablished.learn_bgp` — learn BGP per device into
  `self.all_bgp_sessions[device.name] = bgp.info`; when `bgp` has no `info`
  attribute, `self.failed(msg, goto=['common_cleanup'])` jumps to cleanup.
* `BGPNeighborsEstablished.check_bgp` — pure traversal of the collected
  snapshots producing a results table, per-device log tables, a
  `failed_dict`, a JSON dump on failure, and a final pass/fail verdict.

Python dicts preserve insertion order, so every dict in the snapshot and in
the accumulators is embedded as an insertion-ordered association list.
-/

/-- A neighbor's raw attribute mapping (`props` in the source): a dict from
attribute name to string value; the script reads only `session_state`. -/
abbrev Props := List (String × String)

/-- A VRF's neighbor dict: neighbor address → attributes. -/
abbrev NbrDict := List (String × Props)

instance instDEqProps : DecidableEq Props := inferInstance

instance instDEqNbrDict : DecidableEq NbrDict := inferInstance

/-- One VRF's data dict; the script reads only `vrf_data.get('neighbor', {})`,
with absence of the key meaning no neighbors. -/
structure VrfData where
  neighbor : Option NbrDict
deriving DecidableEq

/-- `vrf` substructure: vrf name → VRF data. -/
abbrev VrfDict := List (String × VrfData)

/-- One routing instance's data dict; the script reads only
`.get('vrf', {})`. -/
structure InstanceData where
  vrf : Option VrfDict
deriving DecidableEq

/-- A per-device BGP snapshot (`bgp.info`): the script reads only
`.get('instance', {})`, a dict from instance name to instance data. -/
structure BgpInfo where
  instTab : Option (List (String × InstanceData))
deriving DecidableEq

/-- `self.all_bgp_sessions`: device name → snapshot, in insertion order. -/
abbrev Sessions := List (String × BgpInfo)

/-- Dict lookup on an insertion-ordered association list (Python `d[k]` /
`d.get(k)` presence test): first binding wins; keys are unique in any list
that models a Python dict. -/
def dlookup (d : List (String × α)) (k : String) : Option α :=
  match d with
  | [] => none
  | (k1, v) :: rest => if k1 = k then some v else dlookup rest k

/-- Python `d.get(k, dflt)`. -/
def pyGet (d : List (String × α)) (k : String) (dflt : α) : α :=
  (dlookup d k).getD dflt

/-- Python `d[k] = v` on an insertion-ordered dict: overwrite in place when
the key exists, otherwise append at the end. -/
def dictInsert (d : List (String × α)) (k : String) (v : α) : List (String × α) :=
  match d with
  | [] => [(k, v)]
  | (k1, v1) :: rest =>
      if k1 = k then (k, v) :: rest else (k1, v1) :: dictInsert rest k v

/-- Python `str.lower()` (ASCII, which is all the script compares). -/
def strLower (s : String) : String := String.mk (s.data.map Char.toLower)

/-- Python `str.capitalize()`: first character uppercased, the rest
lowercased. -/
def strCapitalize (s : String) : String :=
  match s.data with
  | [] => ""
  | c :: cs => String.mk (Char.toUpper c :: cs.map Char.toLower)

/-- `vrfs_dict = bgp_info.get('instance', {}).get('default', {}).get('vrf', {})`:
the defensive three-level descent of `check_bgp`. -/
def deviceVrfs (info : BgpInfo) : VrfDict :=
  ((pyGet (info.instTab.getD []) "default" ⟨none⟩).vrf).getD []

/-- `props.get('session_state', 'Unknown')`. -/
def sessionState (props : Props) : String :=
  pyGet props "session_state" "Unknown"

/-- `'Passed' if state == 'established' else 'Failed'` where
`state = props.get('session_state', 'Unknown').lower()`. -/
def verdict (props : Props) : String :=
  if strLower (sessionState props) = "established" then "Passed" else "Failed"

/-- One row of `results_table`: `[vrf_name, nbr, state.capitalize(), result]`. -/
structure Row where
  vrf : String
  peer : String
  state : String
  result : String
deriving DecidableEq

/-- Build the display row appended for one neighbor. -/
def mkRow (vn nbr : String) (props : Props) : Row :=
  { vrf := vn
    peer := nbr
    state := strCapitalize (strLower (sessionState props))
    result := verdict props }

/-- `failed_dict`: device name → (neighbor address → raw attributes). -/
abbrev FailedDict := List (String × NbrDict)

instance instDEqFailedDict : DecidableEq FailedDict := inferInstance

instance instDEqRowTables : DecidableEq (List (String × List Row)) := inferInstance

/-- `failed_dict.setdefault(device, {})[nbr] = props`: create the device's
inner dict if absent (appending the device at the end), then assign the
neighbor's attributes (overwriting any earlier binding for that address). -/
def addFailure (fd : FailedDict) (device nbr : String) (props : Props) : FailedDict :=
  match dlookup fd device with
  | some m => dictInsert fd device (dictInsert m nbr props)
  | none => fd ++ [(device, dictInsert [] nbr props)]

/-- Mutable state of the `check_bgp` loop: `failed_dict`, `results_table`,
and the list of tables emitted so far by the per-device `log.info(tabulate …)`
call (each tagged with the device whose iteration emitted it). -/
structure CheckState where
  failedDict : FailedDict
  table : List Row
  tables : List (String × List Row)
deriving DecidableEq

/-- Body of the innermost loop `for nbr, props in neighbors.items()`. -/
def stepNeighbor (device vn : String) (st : CheckState) (e : String × Props) : CheckState :=
  { st with
    failedDict :=
      if verdict e.2 = "Failed" then addFailure st.failedDict device e.1 e.2
      else st.failedDict
    table := st.table ++ [mkRow vn e.1 e.2] }

/-- Body of `for vrf_name, vrf_data in vrfs_dict.items()`:
`neighbors = vrf_data.get('neighbor', {})`, then the neighbor loop. -/
def stepVrf (device : String) (st : CheckState) (e : String × VrfData) : CheckState :=
  (e.2.neighbor.getD []).foldl (stepNeighbor device e.1) st

/-- Body of `for device, bgp_info in self.all_bgp_sessions.items()`: the VRF
loop followed by logging the (cumulative) `results_table` for this device. -/
def stepDevice (st : CheckState) (e : String × BgpInfo) : CheckState :=
  let st1 := (deviceVrfs e.2).foldl (stepVrf e.1) st
  { st1 with tables := st1.tables ++ [(e.1, st1.table)] }

/-- Final outcome of the testcase section: `self.passed` / `self.failed`. -/
inductive Verdict where
  | Passed
  | Failed
deriving DecidableEq

/-- Everything `check_bgp` produces: the final `results_table`, the emitted
per-device tables, `failed_dict`, the `json.dumps(failed_dict)` emitted only
when `failed_dict` is truthy, and the final section verdict. -/
structure CheckOutput where
  rows : List Row
  tables : List (String × List Row)
  failedDict : FailedDict
  dump : Option FailedDict
  outcome : Verdict
deriving DecidableEq

/-- The whole `check_bgp` method as a function of `self.all_bgp_sessions`. -/
def checkBgp (sessions : Sessions) : CheckOutput :=
  let st := sessions.foldl stepDevice { failedDict := [], table := [], tables := [] }
  { rows := st.table
    tables := st.tables
    failedDict := st.failedDict
    dump := if st.failedDict = [] then none else some st.failedDict
    outcome := if st.failedDict = [] then Verdict.Passed else Verdict.Failed }

/-- `check_bgp` reads `self.all_bgp_sessions` but contains no statement that
rebinds it or writes into the snapshots, so threading the state through
returns it unchanged. -/
def checkBgpStep (s : Sessions) : Sessions × CheckOutput := (s, checkBgp s)

/-! ## The connection stage (`CommonSetup.connect`)

The external `device.connect()` call either succeeds or raises; a device of
the inventory is embedded together with that outcome (`none` = connects,
`some e` = raises an exception whose text is `e`). `self.failed(msg)` raises
an aetest signal that terminates the subsection, so the loop is embedded
with an early exit: `Except.error msg` models the subsection failing with
`msg` before `self.parent.parameters['devices']` is ever assigned, and
`Except.ok devs` models the loop completing and passing `devs` onward. -/

/-- An inventory entry: the device name and the outcome of its
`device.connect()` call. -/
structure CDevice where
  name : String
  connectErr : Option String
deriving DecidableEq

/-- An ASCII single-quote character, as a string. -/
def quoteS : String := String.singleton (Char.ofNat 39)

/-- The message of `self.failed` in `connect`:
`Failed to establish connection to '<name>': <err>`. -/
def connectFailMsg (name err : String) : String :=
  "Failed to establish connection to " ++ quoteS ++ name ++ quoteS ++ ": " ++ err

/-- Outcome of the connect subsection: either the loop completed and the
working set was assigned to `self.parent.parameters['devices']`, or
`self.failed(msg)` raised and terminated the subsection with `msg`. -/
inductive ConnOutcome where
  | ok (devices : List CDevice)
  | failedWith (msg : String)
deriving DecidableEq

/-- Result of the connect subsection: which devices were attempted (in
order), and either the working set passed onward or the failure message. -/
structure ConnResult where
  attempted : List String
  outcome : ConnOutcome
deriving DecidableEq

/-- Prepend a successfully connected device to the working set, if the rest
of the loop completed. -/
def ConnOutcome.consDev (d : CDevice) : ConnOutcome → ConnOutcome
  | ConnOutcome.ok l => ConnOutcome.ok (d :: l)
  | ConnOutcome.failedWith m => ConnOutcome.failedWith m

/-- The `for device in genie_testbed.devices.values()` loop of `connect`. -/
def connectStage : List CDevice → ConnResult
  | [] => { attempted := [], outcome := ConnOutcome.ok [] }
  | d :: rest =>
      match d.connectErr with
      | none =>
          let r := connectStage rest
          { attempted := d.name :: r.attempted
            outcome := r.outcome.consDev d }
      | some e =>
          { attempted := [d.name]
            outcome := ConnOutcome.failedWith (connectFailMsg d.name e) }

/-- Substring test (`pat in s` in Python), executable. -/
def strContains (s pat : String) : Bool :=
  pat.isEmpty || (s.splitOn pat).length > 1

/-! ## The collection stage (`learn_bgp`)

A connected device is embedded with the outcome of the external
`bgp.learn()`: `some info` when `hasattr(bgp, 'info')` holds afterwards,
`none` when it does not. On `none` the script calls
`self.failed(msg, goto=['common_cleanup'])`, which raises and jumps to the
cleanup section: no later device is learned and `check_bgp` never runs. -/

/-- A connected device together with the result of learning BGP state. -/
structure TDevice where
  name : String
  bgpInfo : Option BgpInfo
deriving DecidableEq

/-- The message of `self.failed` in `learn_bgp`. -/
def learnFailMsg (name : String) : String :=
  "Failed to learn BGP info from device " ++ name

/-- The `learn_bgp` loop: returns the `all_bgp_sessions` accumulated before
any failure, and `some msg` when the section failed and jumped to cleanup. -/
def learnStage : List TDevice → Sessions × Option String
  | [] => ([], none)
  | d :: rest =>
      match d.bgpInfo with
      | some info =>
          let r := learnStage rest
          ((d.name, info) :: r.1, r.2)
      | none => ([], some (learnFailMsg d.name))

/-- The testcase as a whole: `learn_bgp` then, only when it did not jump to
cleanup, `check_bgp` on the collected sessions. `none` models the jump to
`common_cleanup` with the evaluation stage never reached. -/
def runTestcase (devices : List TDevice) : Option CheckOutput :=
  match learnStage devices with
  | (_, some _) => none
  | (sessions, none) => some (checkBgp sessions)

/-! ## Derived views of a snapshot

Closed-form descriptions of what the `check_bgp` loops compute, written
directly over the snapshot structure; the fold is proved equal to them. -/

/-- The neighbors of one VRF entry: `vrf_data.get('neighbor', {})`. -/
def vrfNeighbors (e : String × VrfData) : NbrDict :=
  e.2.neighbor.getD []

/-- All `(neighbor, props)` pairs of a device, VRFs in order, neighbors in
order within each VRF (one occurrence per VRF the address appears in). -/
def allNeighbors (info : BgpInfo) : NbrDict :=
  (deviceVrfs info).flatMap vrfNeighbors

/-- The display rows one device contributes, in VRF-then-neighbor order. -/
def deviceRows (info : BgpInfo) : List Row :=
  (deviceVrfs info).flatMap fun e => (vrfNeighbors e).map fun n => mkRow e.1 n.1 n.2

/-- The failing `(neighbor, props)` occurrences of a device, in iteration
order. -/
def deviceFailList (info : BgpInfo) : NbrDict :=
  (allNeighbors info).filter fun n => verdict n.2 == "Failed"

/-- Build a dict from a list of assignments, later assignments to the same
key overwriting earlier ones in place. -/
def dictOfList (l : NbrDict) : NbrDict :=
  l.foldl (fun m e => dictInsert m e.1 e.2) []

/-- The inner `failed_dict` entry a device ends up with (when nonempty). -/
def deviceFails (info : BgpInfo) : NbrDict :=
  dictOfList (deviceFailList info)

/-- Record a device's failing occurrences into `failed_dict` one by one. -/
def insertFails (fd : FailedDict) (d : String) (l : NbrDict) : FailedDict :=
  l.foldl (fun fd2 e => addFailure fd2 d e.1 e.2) fd

/-- The final `results_table`: every device's rows, devices in iteration
order. -/
def allRows (sessions : Sessions) : List Row :=
  sessions.flatMap fun e => deviceRows e.2

/-- The tables emitted per device: after device `k`, the cumulative rows of
devices `1..k` (the `results_table` is never reset between devices). -/
def cumTables (acc : List Row) : Sessions → List (String × List Row)
  | [] => []
  | e :: rest =>
      (e.1, acc ++ deviceRows e.2) :: cumTables (acc ++ deviceRows e.2) rest

/-- The final `failed_dict`: one entry per device with at least one failing
neighbor, devices in iteration order. -/
def failedOf (sessions : Sessions) : FailedDict :=
  sessions.filterMap fun e =>
    if deviceFailList e.2 = [] then none else some (e.1, deviceFails e.2)

/-- The value of the last assignment to key `k` in a list of assignments. -/
def lookupLast (l : NbrDict) (k : String) : Option Props :=
  dlookup l.reverse k

/-- Number of neighbor occurrences in one snapshot. -/
def nbrCount (info : BgpInfo) : Nat :=
  (allNeighbors info).length

/-- Total number of neighbor occurrences over all collected snapshots. -/
def totalNbrCount (sessions : Sessions) : Nat :=
  (sessions.map fun e => nbrCount e.2).sum

/-- The key column of an association list. -/
def keysOf (d : List (String × α)) : List String :=
  d.map Prod.fst

/-! ## Concrete inputs used for counterexamples and witnesses -/

/-- A neighbor in state `Established`. -/
def nbrEst : Props := [("session_state", "Established")]

/-- A neighbor in state `Idle`. -/
def nbrIdle : Props := [("session_state", "Idle")]

/-- A neighbor in state `Active`, distinguishable from `nbrIdle`. -/
def nbrAct : Props := [("session_state", "Active")]

/-- Snapshot of a device with one established neighbor `10.0.0.1`. -/
def infoEst : BgpInfo :=
  ⟨some [("default", ⟨some [("default", ⟨some [("10.0.0.1", nbrEst)]⟩)]⟩)]⟩

/-- Snapshot of a device with one idle neighbor `10.0.0.2`. -/
def infoIdle : BgpInfo :=
  ⟨some [("default", ⟨some [("default", ⟨some [("10.0.0.2", nbrIdle)]⟩)]⟩)]⟩

/-- Snapshot with the same neighbor address `10.0.0.3` under two VRFs,
failing in both with different attributes. -/
def infoDup : BgpInfo :=
  ⟨some [("default",
    ⟨some [("blue", ⟨some [("10.0.0.3", nbrIdle)]⟩),
           ("red", ⟨some [("10.0.0.3", nbrAct)]⟩)]⟩)]⟩

/-- A two-device session mapping whose second device is evaluated after the
first. -/
def twoDevSessions : Sessions := [("R1", infoEst), ("R2", infoIdle)]

/-- An inventory whose first device's `connect()` raises and whose second
device's `connect()` would succeed. -/
def cexInventory : List CDevice :=
  [⟨"R1", some "simulated connection error"⟩, ⟨"R2", none⟩]

/-- Connected devices where learning succeeds for `R1`, fails for `R2`, and
would succeed for `R3`. -/
def learnDevices : List TDevice :=
  [⟨"R1", some infoEst⟩, ⟨"R2", none⟩, ⟨"R3", some infoIdle⟩]

/-- The attribute mapping `q` is the raw attribute mapping of neighbor `nbr`
somewhere in device `dev`'s snapshot in the input session mapping. -/
def FromInput (s : Sessions) (dev nbr : String) (q : Props) : Prop :=
  ∃ info, (dev, info) ∈ s ∧ ∃ ve, ve ∈ deviceVrfs info ∧ (nbr, q) ∈ vrfNeighbors ve

/-- Every attribute mapping stored in `fd` is shared from the input session
mapping `s` (not synthesized or copied from anywhere else). -/
def GoodFd (s : Sessions) (fd : FailedDict) : Prop :=
  ∀ dev m, (dev, m) ∈ fd → ∀ nbr q, (nbr, q) ∈ m → FromInput s dev nbr q

/-! ## Dictionary lemmas -/

theorem dlookup_append_of_some {a : List (String × α)} {k : String} {v : α}
    (b : List (String × α)) (h : dlookup a k = some v) :
    dlookup (a ++ b) k = some v := by
  induction a with
  | nil => simp [dlookup] at h
  | cons e rest ih =>
      simp only [dlookup, List.cons_append] at h ⊢
      by_cases he : e.1 = k
      · simpa [he] using h
      · simp only [he, if_false] at h ⊢
        exact ih h

theorem dlookup_append_of_none {a : List (String × α)} {k : String}
    (b : List (String × α)) (h : dlookup a k = none) :
    dlookup (a ++ b) k = dlookup b k := by
  induction a with
  | nil => simp
  | cons e rest ih =>
      simp only [dlookup, List.cons_append] at h ⊢
      by_cases he : e.1 = k
      · simp [he] at h
      · simp only [he, if_false] at h ⊢
        exact ih h


theorem dlookup_eq_none_iff {a : List (String × α)} {k : String} :
    dlookup a k = none ↔ k ∉ keysOf a := by
  induction a with
  | nil => simp [dlookup, keysOf]
  | cons e rest ih =>
      obtain ⟨a1, v⟩ := e
      by_cases he : a1 = k
      · subst he
        simp [dlookup, keysOf]
      · simp only [dlookup, he, if_false, keysOf, List.map_cons, List.mem_cons, not_or]
        rw [keysOf] at ih
        rw [ih]
        constructor
        · intro h
          exact ⟨fun hk => he hk.symm, h⟩
        · intro h
          exact h.2

theorem dlookup_isSome_iff {a : List (String × α)} {k : String} :
    (dlookup a k).isSome = true ↔ k ∈ keysOf a := by
  rw [Option.isSome_iff_ne_none, ne_eq, dlookup_eq_none_iff, not_not]

theorem dlookup_mem {fd : List (String × α)} {dev : String} {m : α}
    (h : dlookup fd dev = some m) : (dev, m) ∈ fd := by
  induction fd with
  | nil => simp [dlookup] at h
  | cons e rest ih =>
      obtain ⟨a1, v⟩ := e
      by_cases he : a1 = dev
      · subst he
        simp [dlookup] at h
        subst h
        exact List.mem_cons_self _ _
      · simp only [dlookup, he, if_false] at h
        exact List.mem_cons_of_mem _ (ih h)

theorem dlookup_dictInsert (m : List (String × α)) (k : String) (v : α) (k1 : String) :
    dlookup (dictInsert m k v) k1 = if k = k1 then some v else dlookup m k1 := by
  induction m with
  | nil =>
      simp [dictInsert, dlookup]
  | cons e rest ih =>
      obtain ⟨a1, w⟩ := e
      by_cases he : a1 = k
      · subst he
        by_cases hk : a1 = k1
        · subst hk
          simp [dictInsert, dlookup]
        · simp [dictInsert, dlookup, hk]
      · by_cases h1 : a1 = k1
        · subst h1
          have hk1 : ¬ k = a1 := fun hh => he hh.symm
          simp [dictInsert, dlookup, he, hk1]
        · simp [dictInsert, dlookup, he, h1, ih]

theorem mem_dictInsert {m : List (String × α)} {k : String} {v : α} {x : String × α}
    (h : x ∈ dictInsert m k v) : x = (k, v) ∨ x ∈ m := by
  induction m with
  | nil => simpa [dictInsert] using h
  | cons e rest ih =>
      obtain ⟨a1, w⟩ := e
      by_cases he : a1 = k
      · subst he
        have h2 : x = (a1, v) ∨ x ∈ rest := by
          simpa [dictInsert] using h
        rcases h2 with h2 | h2
        · exact Or.inl h2
        · exact Or.inr (List.mem_cons_of_mem _ h2)
      · simp only [dictInsert, he, if_false, List.mem_cons] at h
        rcases h with h | h
        · exact Or.inr (h ▸ List.mem_cons_self _ _)
        · rcases ih h with h1 | h1
          · exact Or.inl h1
          · exact Or.inr (List.mem_cons_of_mem _ h1)

theorem dictInsert_append {a : List (String × α)} {d : String}
    (h : dlookup a d = none) (m v : α) :
    dictInsert (a ++ [(d, m)]) d v = a ++ [(d, v)] := by
  induction a with
  | nil => simp [dictInsert]
  | cons e rest ih =>
      obtain ⟨a1, w⟩ := e
      by_cases he : a1 = d
      · simp [dlookup, he] at h
      · simp only [dlookup, he, if_false] at h
        simp only [List.cons_append, dictInsert, he, if_false, List.append_eq]
        rw [ih h]

theorem keysOf_dictInsert_mem {m : List (String × α)} {k k1 : String} {v : α} :
    k1 ∈ keysOf (dictInsert m k v) ↔ k1 = k ∨ k1 ∈ keysOf m := by
  induction m with
  | nil => simp [dictInsert, keysOf]
  | cons e rest ih =>
      obtain ⟨a1, w⟩ := e
      by_cases he : a1 = k
      · subst he
        simp [dictInsert, keysOf]
      · simp only [keysOf] at ih
        simp only [keysOf, dictInsert, he, if_false, List.map_cons, List.mem_cons]
        rw [ih]
        tauto

theorem nodup_keysOf_dictInsert {m : List (String × α)} {k : String} {v : α}
    (h : (keysOf m).Nodup) : (keysOf (dictInsert m k v)).Nodup := by
  induction m with
  | nil => simp [dictInsert, keysOf]
  | cons e rest ih =>
      obtain ⟨a1, w⟩ := e
      simp only [keysOf, List.map_cons, List.nodup_cons] at h
      by_cases he : a1 = k
      · subst he
        have hkeys : keysOf (dictInsert ((a1, w) :: rest) a1 v) = a1 :: keysOf rest := by
          simp [dictInsert, keysOf]
        rw [hkeys, List.nodup_cons]
        exact ⟨h.1, h.2⟩
      · have hrest := ih h.2
        simp only [dictInsert, he, if_false, keysOf, List.map_cons, List.nodup_cons]
        refine ⟨?_, hrest⟩
        intro hmem
        have hmem2 : a1 ∈ keysOf (dictInsert rest k v) := by
          simpa [keysOf] using hmem
        rcases keysOf_dictInsert_mem.1 hmem2 with h1 | h1
        · exact he h1
        · exact h.1 (by simpa [keysOf] using h1)

theorem dlookup_append (a b : List (String × α)) (k : String) :
    dlookup (a ++ b) k = (dlookup a k).or (dlookup b k) := by
  cases hL : dlookup a k with
  | some v => rw [dlookup_append_of_some _ hL, Option.or_some]
  | none => rw [dlookup_append_of_none _ hL, Option.none_or]

theorem lookupLast_nil (k : String) : lookupLast [] k = none := rfl

theorem lookupLast_cons (e : String × Props) (l : NbrDict) (k : String) :
    lookupLast (e :: l) k =
      (lookupLast l k).or (if e.1 = k then some e.2 else none) := by
  unfold lookupLast
  rw [List.reverse_cons, dlookup_append]
  rfl

theorem dlookup_foldl_dictInsert (l : NbrDict) :
    ∀ (m : NbrDict) (k : String),
      dlookup (l.foldl (fun m2 e => dictInsert m2 e.1 e.2) m) k =
        (lookupLast l k).or (dlookup m k) := by
  induction l with
  | nil =>
      intro m k
      simp [lookupLast_nil]
  | cons e l ih =>
      intro m k
      rw [List.foldl_cons, ih, lookupLast_cons, dlookup_dictInsert]
      cases hL : lookupLast l k with
      | some v => simp
      | none =>
          simp only [Option.none_or]
          by_cases he : e.1 = k
          · simp [he]
          · simp [he]

theorem dlookup_dictOfList (l : NbrDict) (k : String) :
    dlookup (dictOfList l) k = lookupLast l k := by
  unfold dictOfList
  rw [dlookup_foldl_dictInsert]
  simp [dlookup]

theorem nodup_keysOf_dictOfList (l : NbrDict) : (keysOf (dictOfList l)).Nodup := by
  unfold dictOfList
  have main : ∀ (l2 : NbrDict) (m : NbrDict), (keysOf m).Nodup →
      (keysOf (l2.foldl (fun m2 e => dictInsert m2 e.1 e.2) m)).Nodup := by
    intro l2
    induction l2 with
    | nil => intro m hm; simpa using hm
    | cons e l2 ih =>
        intro m hm
        rw [List.foldl_cons]
        exact ih _ (nodup_keysOf_dictInsert hm)
  exact main l [] (by simp [keysOf])

theorem dlookup_eq_head_filter (l : List (String × α)) (k : String) :
    dlookup l k = ((l.filter fun e => e.1 == k).head?).map Prod.snd := by
  induction l with
  | nil => simp [dlookup]
  | cons e rest ih =>
      obtain ⟨a1, v⟩ := e
      by_cases he : a1 = k
      · subst he
        simp [dlookup, List.filter_cons]
      · simp [dlookup, List.filter_cons, he, ih]

theorem lookupLast_eq_getLast_filter (l : NbrDict) (k : String) :
    lookupLast l k = ((l.filter fun e => e.1 == k).getLast?).map Prod.snd := by
  unfold lookupLast
  rw [dlookup_eq_head_filter, List.filter_reverse, List.head?_reverse]

theorem lookupLast_isSome_iff (l : NbrDict) (k : String) :
    (lookupLast l k).isSome = true ↔ k ∈ keysOf l := by
  unfold lookupLast
  rw [dlookup_isSome_iff]
  unfold keysOf
  rw [List.map_reverse]
  exact List.mem_reverse

/-! ## Closed forms of the `check_bgp` folds -/

theorem insertFails_append (fd : FailedDict) (d : String) (a b : NbrDict) :
    insertFails fd d (a ++ b) = insertFails (insertFails fd d a) d b := by
  unfold insertFails
  rw [List.foldl_append]

theorem foldNbr_spec (device vn : String) (ns : NbrDict) :
    ∀ st : CheckState,
      ns.foldl (stepNeighbor device vn) st =
        { failedDict :=
            insertFails st.failedDict device (ns.filter fun n => verdict n.2 == "Failed")
          table := st.table ++ ns.map fun n => mkRow vn n.1 n.2
          tables := st.tables } := by
  induction ns with
  | nil =>
      intro st
      simp [insertFails]
  | cons n ns ih =>
      intro st
      rw [List.foldl_cons, ih]
      by_cases hv : verdict n.2 = "Failed"
      · simp [stepNeighbor, hv, List.filter_cons, insertFails]
      · simp [stepNeighbor, hv, List.filter_cons, insertFails]

theorem foldVrf_spec (device : String) (vrfs : VrfDict) :
    ∀ st : CheckState,
      vrfs.foldl (stepVrf device) st =
        { failedDict :=
            insertFails st.failedDict device
              ((vrfs.flatMap vrfNeighbors).filter fun n => verdict n.2 == "Failed")
          table :=
            st.table ++ vrfs.flatMap fun e => (vrfNeighbors e).map fun n => mkRow e.1 n.1 n.2
          tables := st.tables } := by
  induction vrfs with
  | nil =>
      intro st
      simp [insertFails]
  | cons e vs ih =>
      intro st
      rw [List.foldl_cons]
      have hstep : stepVrf device st e =
          { failedDict :=
              insertFails st.failedDict device
                ((vrfNeighbors e).filter fun n => verdict n.2 == "Failed")
            table := st.table ++ (vrfNeighbors e).map fun n => mkRow e.1 n.1 n.2
            tables := st.tables } := by
        unfold stepVrf
        exact foldNbr_spec device e.1 (e.2.neighbor.getD []) st
      rw [hstep, ih]
      simp [List.flatMap_cons, List.filter_append, insertFails_append, List.append_assoc]

theorem stepDevice_spec (st : CheckState) (e : String × BgpInfo) :
    stepDevice st e =
      { failedDict := insertFails st.failedDict e.1 (deviceFailList e.2)
        table := st.table ++ deviceRows e.2
        tables := st.tables ++ [(e.1, st.table ++ deviceRows e.2)] } := by
  unfold stepDevice
  rw [foldVrf_spec]
  simp [deviceRows, deviceFailList, allNeighbors]

theorem foldDevices_tables (sessions : Sessions) :
    ∀ st : CheckState,
      (sessions.foldl stepDevice st).table = st.table ++ allRows sessions ∧
      (sessions.foldl stepDevice st).tables = st.tables ++ cumTables st.table sessions := by
  induction sessions with
  | nil =>
      intro st
      simp [allRows, cumTables]
  | cons e rest ih =>
      intro st
      rw [List.foldl_cons, stepDevice_spec]
      obtain ⟨h1, h2⟩ :=
        ih { failedDict := insertFails st.failedDict e.1 (deviceFailList e.2)
             table := st.table ++ deviceRows e.2
             tables := st.tables ++ [(e.1, st.table ++ deviceRows e.2)] }
      constructor
      · rw [h1]
        simp [allRows, List.flatMap_cons, List.append_assoc]
      · rw [h2]
        simp [cumTables, List.append_assoc]

theorem insertFails_entry {fd0 : FailedDict} {d : String}
    (h : dlookup fd0 d = none) (l : NbrDict) :
    ∀ m : NbrDict,
      insertFails (fd0 ++ [(d, m)]) d l =
        fd0 ++ [(d, l.foldl (fun m2 e => dictInsert m2 e.1 e.2) m)] := by
  induction l with
  | nil =>
      intro m
      rfl
  | cons e l ih =>
      intro m
      have hlook : dlookup (fd0 ++ [(d, m)]) d = some m := by
        rw [dlookup_append_of_none _ h]
        simp [dlookup]
      have hadd : addFailure (fd0 ++ [(d, m)]) d e.1 e.2 =
          fd0 ++ [(d, dictInsert m e.1 e.2)] := by
        unfold addFailure
        rw [hlook]
        exact dictInsert_append h m (dictInsert m e.1 e.2)
      unfold insertFails at ih ⊢
      rw [List.foldl_cons, hadd, ih (dictInsert m e.1 e.2), List.foldl_cons]

theorem insertFails_fresh {fd : FailedDict} {d : String}
    (h : dlookup fd d = none) (l : NbrDict) :
    insertFails fd d l = if l = [] then fd else fd ++ [(d, dictOfList l)] := by
  cases l with
  | nil => simp [insertFails]
  | cons e l =>
      rw [if_neg (List.cons_ne_nil e l)]
      have hadd : addFailure fd d e.1 e.2 = fd ++ [(d, dictInsert [] e.1 e.2)] := by
        unfold addFailure
        rw [h]
      have hrest := insertFails_entry h l (dictInsert [] e.1 e.2)
      unfold insertFails at hrest ⊢
      rw [List.foldl_cons, hadd, hrest]
      unfold dictOfList
      rw [List.foldl_cons]

theorem foldDevices_fd (sessions : Sessions) :
    ∀ st : CheckState,
      (keysOf sessions).Nodup →
      (∀ d, d ∈ keysOf sessions → dlookup st.failedDict d = none) →
      (sessions.foldl stepDevice st).failedDict = st.failedDict ++ failedOf sessions := by
  induction sessions with
  | nil =>
      intro st _ _
      simp [failedOf]
  | cons e rest ih =>
      intro st hnd hfresh
      have hememb : e.1 ∈ keysOf (e :: rest) := by simp [keysOf]
      have hd : dlookup st.failedDict e.1 = none := hfresh e.1 hememb
      have hnd2 : e.1 ∉ keysOf rest ∧ (keysOf rest).Nodup := by
        simpa [keysOf] using hnd
      rw [List.foldl_cons, stepDevice_spec]
      set st1 : CheckState :=
        { failedDict := insertFails st.failedDict e.1 (deviceFailList e.2)
          table := st.table ++ deviceRows e.2
          tables := st.tables ++ [(e.1, st.table ++ deviceRows e.2)] } with hst1
      have hst1fd : st1.failedDict =
          if deviceFailList e.2 = [] then st.failedDict
          else st.failedDict ++ [(e.1, deviceFails e.2)] := by
        rw [hst1]
        exact insertFails_fresh hd (deviceFailList e.2)
      have hfresh2 : ∀ d, d ∈ keysOf rest → dlookup st1.failedDict d = none := by
        intro d hdm
        have hne : ¬ e.1 = d := fun hh => hnd2.1 (hh ▸ hdm)
        have hold : dlookup st.failedDict d = none :=
          hfresh d (by simp [keysOf]; right; simpa [keysOf] using hdm)
        rw [hst1fd]
        by_cases hemp : deviceFailList e.2 = []
        · rw [if_pos hemp]
          exact hold
        · rw [if_neg hemp, dlookup_append_of_none _ hold]
          simp [dlookup, hne]
      have hrec := ih st1 hnd2.2 hfresh2
      rw [hrec, hst1fd]
      have hfoc : failedOf (e :: rest) =
          (if deviceFailList e.2 = [] then [] else [(e.1, deviceFails e.2)]) ++ failedOf rest := by
        unfold failedOf
        rw [List.filterMap_cons]
        by_cases hemp : deviceFailList e.2 = []
        · simp [hemp]
        · simp [hemp]
      rw [hfoc]
      by_cases hemp : deviceFailList e.2 = []
      · simp [hemp]
      · simp [hemp]

theorem checkBgp_rows_eq (s : Sessions) : (checkBgp s).rows = allRows s := by
  unfold checkBgp
  exact (foldDevices_tables s _).1.trans (by simp)

theorem checkBgp_tables_eq (s : Sessions) : (checkBgp s).tables = cumTables [] s := by
  unfold checkBgp
  exact (foldDevices_tables s _).2.trans (by simp)

theorem checkBgp_fd_eq {s : Sessions} (h : (keysOf s).Nodup) :
    (checkBgp s).failedDict = failedOf s := by
  unfold checkBgp
  have := foldDevices_fd s { failedDict := [], table := [], tables := [] } h
    (fun d _ => by simp [dlookup])
  simpa using this

theorem checkBgp_outcome_def (s : Sessions) :
    (checkBgp s).outcome =
      if (checkBgp s).failedDict = [] then Verdict.Passed else Verdict.Failed := by
  unfold checkBgp
  by_cases h : (s.foldl stepDevice { failedDict := [], table := [], tables := [] }).failedDict = []
  · simp [h]
  · simp [h]

theorem checkBgp_dump_def (s : Sessions) :
    (checkBgp s).dump =
      if (checkBgp s).failedDict = [] then none else some ((checkBgp s).failedDict) := by
  unfold checkBgp
  by_cases h : (s.foldl stepDevice { failedDict := [], table := [], tables := [] }).failedDict = []
  · simp [h]
  · simp [h]

theorem foldDevices_fd_stable (sessions : Sessions) :
    ∀ st : CheckState, (∀ e, e ∈ sessions → deviceFailList e.2 = []) →
      (sessions.foldl stepDevice st).failedDict = st.failedDict := by
  induction sessions with
  | nil => intro st _; rfl
  | cons e rest ih =>
      intro st hall
      rw [List.foldl_cons, stepDevice_spec, hall e (List.mem_cons_self _ _)]
      exact ih _ (fun x hx => hall x (List.mem_cons_of_mem _ hx))

theorem deviceRows_length (info : BgpInfo) : (deviceRows info).length = nbrCount info := by
  unfold deviceRows nbrCount allNeighbors
  rw [List.length_flatMap, List.length_flatMap]
  congr 1
  apply List.map_congr_left
  intro e _
  simp

theorem allRows_length (s : Sessions) : (allRows s).length = totalNbrCount s := by
  unfold allRows totalNbrCount
  rw [List.length_flatMap]
  congr 1
  apply List.map_congr_left
  intro e _
  simp [deviceRows_length]

/-! ## Provenance of `failed_dict` entries -/

theorem addFailure_good {s : Sessions} {fd : FailedDict} {dev nbr : String} {q : Props}
    (hg : GoodFd s fd) (hq : FromInput s dev nbr q) :
    GoodFd s (addFailure fd dev nbr q) := by
  intro dev2 m2 hm2 nbr2 q2 hq2
  unfold addFailure at hm2
  cases hL : dlookup fd dev with
  | some m0 =>
      rw [hL] at hm2
      rcases mem_dictInsert hm2 with h1 | h1
      · have hdev : dev2 = dev := congrArg Prod.fst h1
        have hm2e : m2 = dictInsert m0 nbr q := congrArg Prod.snd h1
        subst hdev
        rw [hm2e] at hq2
        rcases mem_dictInsert hq2 with h2 | h2
        · have hn : nbr2 = nbr := congrArg Prod.fst h2
          have hqe : q2 = q := congrArg Prod.snd h2
          subst hn
          rw [hqe]
          exact hq
        · exact hg _ m0 (dlookup_mem hL) nbr2 q2 h2
      · exact hg dev2 m2 h1 nbr2 q2 hq2
  | none =>
      rw [hL] at hm2
      rcases List.mem_append.1 hm2 with h1 | h1
      · exact hg dev2 m2 h1 nbr2 q2 hq2
      · have h2 : (dev2, m2) = (dev, dictInsert [] nbr q) := by simpa using h1
        have hdev : dev2 = dev := congrArg Prod.fst h2
        have hm2e : m2 = dictInsert [] nbr q := congrArg Prod.snd h2
        subst hdev
        rw [hm2e] at hq2
        have h3 : (nbr2, q2) = (nbr, q) := by simpa [dictInsert] using hq2
        have hn : nbr2 = nbr := congrArg Prod.fst h3
        have hqe : q2 = q := congrArg Prod.snd h3
        subst hn
        rw [hqe]
        exact hq

theorem foldNbr_good {s : Sessions} {info : BgpInfo} {dev : String}
    {ve : String × VrfData}
    (hinfo : (dev, info) ∈ s) (hve : ve ∈ deviceVrfs info)
    (ns : NbrDict) (hns : ∀ n, n ∈ ns → n ∈ vrfNeighbors ve) :
    ∀ st : CheckState, GoodFd s st.failedDict →
      GoodFd s ((ns.foldl (stepNeighbor dev ve.1) st).failedDict) := by
  induction ns with
  | nil => intro st hst; exact hst
  | cons n ns ih =>
      intro st hst
      rw [List.foldl_cons]
      refine ih (fun x hx => hns x (List.mem_cons_of_mem _ hx)) _ ?_
      unfold stepNeighbor
      by_cases hv : verdict n.2 = "Failed"
      · simp only [hv, if_pos rfl]
        refine addFailure_good hst ?_
        exact ⟨info, hinfo, ve, hve, hns n (List.mem_cons_self _ _)⟩
      · simpa [hv] using hst

theorem foldVrf_good {s : Sessions} {info : BgpInfo} {dev : String}
    (hinfo : (dev, info) ∈ s) (vrfs : VrfDict)
    (hvs : ∀ ve, ve ∈ vrfs → ve ∈ deviceVrfs info) :
    ∀ st : CheckState, GoodFd s st.failedDict →
      GoodFd s ((vrfs.foldl (stepVrf dev) st).failedDict) := by
  induction vrfs with
  | nil => intro st hst; exact hst
  | cons ve vs ih =>
      intro st hst
      rw [List.foldl_cons]
      refine ih (fun x hx => hvs x (List.mem_cons_of_mem _ hx)) _ ?_
      unfold stepVrf
      exact foldNbr_good hinfo (hvs ve (List.mem_cons_self _ _)) _ (fun n hn => hn) st hst

theorem checkBgp_good (s : Sessions) : GoodFd s (checkBgp s).failedDict := by
  unfold checkBgp
  have main : ∀ (l : Sessions), (∀ e, e ∈ l → e ∈ s) →
      ∀ st : CheckState, GoodFd s st.failedDict →
        GoodFd s ((l.foldl stepDevice st).failedDict) := by
    intro l
    induction l with
    | nil => intro _ st hst; exact hst
    | cons e rest ih =>
        intro hl st hst
        rw [List.foldl_cons]
        refine ih (fun x hx => hl x (List.mem_cons_of_mem _ hx)) _ ?_
        unfold stepDevice
        have he : (e.1, e.2) ∈ s := hl e (List.mem_cons_self _ _)
        exact foldVrf_good he (deviceVrfs e.2) (fun x hx => hx) st hst
  exact main s (fun e he => he) _ (by intro dev m hm; simp at hm)

/-! ## Lookup structure of the final `failed_dict` -/

theorem keysOf_failedOf_sub (s : Sessions) :
    ∀ k, k ∈ keysOf (failedOf s) → k ∈ keysOf s := by
  induction s with
  | nil =>
      intro k hk
      simp [failedOf, keysOf] at hk
  | cons e rest ih =>
      intro k hk
      unfold failedOf at hk
      rw [List.filterMap_cons] at hk
      by_cases hemp : deviceFailList e.2 = []
      · rw [if_pos hemp] at hk
        exact List.mem_cons_of_mem _ (ih k hk)
      · rw [if_neg hemp] at hk
        simp only [keysOf, List.map_cons, List.mem_cons] at hk ⊢
        rcases hk with hk | hk
        · exact Or.inl hk
        · exact Or.inr (ih k hk)

theorem failedOf_cons (e : String × BgpInfo) (rest : Sessions) :
    failedOf (e :: rest) =
      (if deviceFailList e.2 = [] then [] else [(e.1, deviceFails e.2)]) ++ failedOf rest := by
  unfold failedOf
  rw [List.filterMap_cons]
  by_cases hemp : deviceFailList e.2 = []
  · simp [hemp]
  · simp [hemp]

theorem dlookup_failedOf_none {s : Sessions} {dev : String}
    (hdev : dlookup s dev = none) : dlookup (failedOf s) dev = none := by
  rw [dlookup_eq_none_iff] at hdev ⊢
  exact fun hm => hdev (keysOf_failedOf_sub s dev hm)

theorem dlookup_failedOf_some {s : Sessions} (h : (keysOf s).Nodup) {dev : String}
    {info : BgpInfo} (hdev : dlookup s dev = some info) :
    dlookup (failedOf s) dev =
      if deviceFailList info = [] then none else some (deviceFails info) := by
  induction s with
  | nil => simp [dlookup] at hdev
  | cons e rest ih =>
      have hnd : e.1 ∉ keysOf rest ∧ (keysOf rest).Nodup := by
        simpa [keysOf] using h
      rw [failedOf_cons]
      by_cases hd : e.1 = dev
      · subst hd
        have hinfo : info = e.2 := by
          cases e
          simp [dlookup] at hdev
          exact hdev.symm
        subst hinfo
        have hrestnone : dlookup (failedOf rest) e.1 = none :=
          dlookup_failedOf_none (dlookup_eq_none_iff.2 hnd.1)
        by_cases hemp : deviceFailList e.2 = []
        · rw [if_pos hemp, if_pos hemp]
          simpa using hrestnone
        · rw [if_neg hemp, if_neg hemp]
          simp [dlookup]
      · have hrest : dlookup rest dev = some info := by
          cases e
          simp only [dlookup] at hdev
          rwa [if_neg hd] at hdev
        have hrec := ih hnd.2 hrest
        by_cases hemp : deviceFailList e.2 = []
        · rw [if_pos hemp]
          simpa using hrec
        · rw [if_neg hemp]
          rw [List.singleton_append]
          simp only [dlookup]
          rw [if_neg hd]
          exact hrec

theorem mem_keysOf_iff {l : List (String × α)} {k : String} :
    k ∈ keysOf l ↔ ∃ v, (k, v) ∈ l := by
  simp only [keysOf, List.mem_map]
  constructor
  · rintro ⟨p, hp, hk⟩
    subst hk
    exact ⟨p.2, hp⟩
  · rintro ⟨v, hv⟩
    exact ⟨(k, v), hv, rfl⟩

theorem mem_deviceFailList {info : BgpInfo} {nbr : String} {q : Props} :
    (nbr, q) ∈ deviceFailList info ↔
      (nbr, q) ∈ allNeighbors info ∧ verdict q = "Failed" := by
  unfold deviceFailList
  rw [List.mem_filter]
  simp

theorem deviceFailList_ne_nil_iff (info : BgpInfo) :
    deviceFailList info ≠ [] ↔
      ∃ n, n ∈ allNeighbors info ∧ verdict n.2 = "Failed" := by
  unfold deviceFailList
  rw [Ne, List.filter_eq_nil_iff]
  push_neg
  simp

theorem dlookup_deviceFails_isSome {info : BgpInfo} {nbr : String} :
    (dlookup (deviceFails info) nbr).isSome = true ↔
      ∃ q, (nbr, q) ∈ allNeighbors info ∧ verdict q = "Failed" := by
  unfold deviceFails
  rw [dlookup_dictOfList, lookupLast_isSome_iff]
  rw [mem_keysOf_iff]
  constructor
  · rintro ⟨q, hq⟩
    exact ⟨q, mem_deviceFailList.1 hq⟩
  · rintro ⟨q, hq1, hq2⟩
    exact ⟨q, mem_deviceFailList.2 ⟨hq1, hq2⟩⟩

theorem totalNbrCount_zero {s : Sessions} (h : totalNbrCount s = 0) :
    ∀ e, e ∈ s → allNeighbors e.2 = [] := by
  intro e he
  unfold totalNbrCount at h
  rw [List.sum_eq_zero_iff] at h
  have := h (nbrCount e.2) (List.mem_map.2 ⟨e, he, rfl⟩)
  unfold nbrCount at this
  exact List.length_eq_zero.1 this

theorem deviceVrfs_of_missing {info : BgpInfo}
    (h : info.instTab = none ∨ dlookup (info.instTab.getD []) "default" = none ∨
         (pyGet (info.instTab.getD []) "default" ⟨none⟩).vrf = none) :
    deviceVrfs info = [] := by
  unfold deviceVrfs
  rcases h with h | h | h
  · rw [h]
    simp [pyGet, dlookup]
  · rw [pyGet, h]
    simp
  · rw [h]
    simp

/-! ## Connection and collection stage lemmas -/

theorem connectStage_all_ok (devs : List CDevice)
    (h : ∀ x, x ∈ devs → x.connectErr = none) :
    connectStage devs = { attempted := devs.map CDevice.name, outcome := ConnOutcome.ok devs } := by
  induction devs with
  | nil => rfl
  | cons d rest ih =>
      have hd : d.connectErr = none := h d (List.mem_cons_self _ _)
      have hrest := ih (fun x hx => h x (List.mem_cons_of_mem _ hx))
      simp [connectStage, hd, hrest, ConnOutcome.consDev]

theorem connectStage_first_failure (pre : List CDevice) (d : CDevice) (post : List CDevice)
    (err : String) (hpre : ∀ x, x ∈ pre → x.connectErr = none)
    (hd : d.connectErr = some err) :
    connectStage (pre ++ d :: post) =
      { attempted := pre.map CDevice.name ++ [d.name]
        outcome := ConnOutcome.failedWith (connectFailMsg d.name err) } := by
  induction pre with
  | nil => simp [connectStage, hd]
  | cons x pre ih =>
      have hx : x.connectErr = none := hpre x (List.mem_cons_self _ _)
      have hrest := ih (fun y hy => hpre y (List.mem_cons_of_mem _ hy))
      simp [connectStage, hx, hrest, ConnOutcome.consDev]

theorem learnStage_first_failure (pre : List TDevice) (d : TDevice) (post : List TDevice)
    (hpre : ∀ x, x ∈ pre → x.bgpInfo ≠ none) (hd : d.bgpInfo = none) :
    learnStage (pre ++ d :: post) =
      (pre.filterMap (fun x => x.bgpInfo.map fun i => (x.name, i)),
       some (learnFailMsg d.name)) := by
  induction pre with
  | nil => simp [learnStage, hd]
  | cons x pre ih =>
      have hx : x.bgpInfo ≠ none := hpre x (List.mem_cons_self _ _)
      obtain ⟨i, hi⟩ := Option.ne_none_iff_exists.1 hx
      have hrest := ih (fun y hy => hpre y (List.mem_cons_of_mem _ hy))
      simp [learnStage, ← hi, hrest, List.filterMap_cons]

/-! ## Row filtering by peer (duplicate neighbor addresses) -/

theorem vrf_rows_filter (vn nbr : String) (ns : NbrDict) :
    ((ns.map fun n => mkRow vn n.1 n.2).filter fun r => r.peer == nbr).length =
      (ns.filter fun e => e.1 == nbr).length := by
  rw [List.filter_map, List.length_map]
  congr 1

theorem deviceRows_filter_peer (info : BgpInfo) (nbr : String) :
    ((deviceRows info).filter fun r => r.peer == nbr).length =
      ((allNeighbors info).filter fun e => e.1 == nbr).length := by
  unfold deviceRows allNeighbors
  induction deviceVrfs info with
  | nil => rfl
  | cons ve vs ih =>
      rw [List.flatMap_cons, List.flatMap_cons, List.filter_append, List.filter_append,
        List.length_append, List.length_append, ih, vrf_rows_filter]

theorem filter_key_of_nodup {m : NbrDict} (hnd : (keysOf m).Nodup) {k : String} {v : Props}
    (h : dlookup m k = some v) : m.filter (fun e => e.1 == k) = [(k, v)] := by
  induction m with
  | nil => simp [dlookup] at h
  | cons e rest ih =>
      obtain ⟨a1, w⟩ := e
      have hnd2 : a1 ∉ keysOf rest ∧ (keysOf rest).Nodup := by
        simpa [keysOf] using hnd
      by_cases he : a1 = k
      · subst he
        simp [dlookup] at h
        subst h
        rw [List.filter_cons]
        simp only [beq_self_eq_true, if_pos]
        have hrest : rest.filter (fun e => e.1 == a1) = [] := by
          rw [List.filter_eq_nil_iff]
          intro x hx hbeq
          exact hnd2.1 (mem_keysOf_iff.2 ⟨x.2, by
            have : x.1 = a1 := by simpa using hbeq
            rwa [← this]⟩)
        simp [hrest]
      · simp only [dlookup, he, if_false] at h
        rw [List.filter_cons]
        have : ((a1, w).1 == k) = false := by simp [he]
        simp only [this, if_neg]
        simpa using ih hnd2.2 h

theorem cumTables_map_fst (s : Sessions) :
    ∀ acc : List Row, (cumTables acc s).map Prod.fst = s.map Prod.fst := by
  induction s with
  | nil => intro acc; rfl
  | cons e rest ih =>
      intro acc
      simp [cumTables, ih]

/-! ## Claims -/

/-- C3: for every neighbor attribute mapping, the verdict is `Passed` if and
only if the `session_state`, lowercased, equals exactly `"established"`;
otherwise it is `Failed`; and a missing `session_state` field is replaced by
the sentinel `"Unknown"` and therefore yields `Failed`. -/
theorem c3_verdict_rule (props : Props) :
    (verdict props = "Passed" ↔ strLower (sessionState props) = "established") ∧
    (verdict props = "Passed" ∨ verdict props = "Failed") ∧
    (verdict props ≠ "Passed" → verdict props = "Failed") ∧
    (dlookup props "session_state" = none →
      sessionState props = "Unknown" ∧ verdict props = "Failed") := by
  have hcase : ∀ p : Props, verdict p = "Passed" ∨ verdict p = "Failed" := by
    intro p
    unfold verdict
    by_cases h : strLower (sessionState p) = "established"
    · left
      rw [if_pos h]
    · right
      rw [if_neg h]
  refine ⟨?_, hcase props, ?_, ?_⟩
  · unfold verdict
    by_cases h : strLower (sessionState props) = "established"
    · simp [h]
    · simp [h]
  · intro h
    rcases hcase props with h1 | h1
    · exact absurd h1 h
    · exact h1
  · intro h
    have hs : sessionState props = "Unknown" := by
      unfold sessionState pyGet
      rw [h]
      rfl
    refine ⟨hs, ?_⟩
    unfold verdict
    rw [hs]
    decide

/-- C3 witness: a neighbor with no `session_state` key gets the `"Unknown"`
sentinel and fails; for an explicit `session_state` the `Passed` verdict is
equivalent to the lowercased state being `"established"`. -/
theorem c3_verdict_rule_witness :
    (sessionState [("address_family", "ipv4")] = "Unknown" ∧
      verdict [("address_family", "ipv4")] = "Failed") ∧
    (verdict [("session_state", "ESTABLISHED")] = "Passed" ↔
      strLower (sessionState [("session_state", "ESTABLISHED")]) = "established") ∧
    (verdict [("session_state", "Idle")] = "Passed" ↔
      strLower (sessionState [("session_state", "Idle")]) = "established") :=
  ⟨(c3_verdict_rule [("address_family", "ipv4")]).2.2.2 (by decide),
   (c3_verdict_rule [("session_state", "ESTABLISHED")]).1,
   (c3_verdict_rule [("session_state", "Idle")]).1⟩

/-- C8: the evaluator is deterministic and idempotent — running `check_bgp`
a second time on the state left behind by the first run yields the same
session mapping and an identical output (rows, tables, failure index, dump
and outcome all equal). -/
theorem c8_evaluator_idempotent (s : Sessions) :
    (checkBgpStep ((checkBgpStep s).1)).1 = (checkBgpStep s).1 ∧
    (checkBgpStep ((checkBgpStep s).1)).2 = (checkBgpStep s).2 ∧
    (checkBgpStep ((checkBgpStep s).1)).2.rows = (checkBgpStep s).2.rows ∧
    (checkBgpStep ((checkBgpStep s).1)).2.failedDict = (checkBgpStep s).2.failedDict := by
  refine ⟨rfl, rfl, rfl, rfl⟩

/-- C9: the evaluation stage never mutates its input — threading the session
mapping through `check_bgp` returns it unchanged — and every attribute
mapping stored in the failure index is shared from (is literally an entry
of) the input snapshots. -/
theorem c9_no_mutation_and_sharing (s : Sessions) :
    (checkBgpStep s).1 = s ∧
    (∀ dev m, dlookup (checkBgp s).failedDict dev = some m →
      ∀ nbr q, dlookup m nbr = some q → FromInput s dev nbr q) := by
  refine ⟨rfl, ?_⟩
  intro dev m hm nbr q hq
  exact checkBgp_good s dev m (dlookup_mem hm) nbr q (dlookup_mem hq)

/-- C9 witness: on a concrete two-device input the sessions come back
unchanged, and the failing neighbor's stored attributes are traceable to the
input snapshot of `R2`. -/
theorem c9_no_mutation_and_sharing_witness :
    (checkBgpStep twoDevSessions).1 = twoDevSessions ∧
    FromInput twoDevSessions "R2" "10.0.0.2" nbrIdle :=
  ⟨(c9_no_mutation_and_sharing twoDevSessions).1,
   (c9_no_mutation_and_sharing twoDevSessions).2 "R2" [("10.0.0.2", nbrIdle)]
     (by decide) "10.0.0.2" nbrIdle (by decide)⟩

/-- C2 counterexample: with two devices each contributing one row, the table
emitted during the second device's iteration is not that device's rows alone
— `results_table` is never reset, so the second emitted table also contains
the first device's row. -/
theorem c2_counterexample :
    (checkBgp twoDevSessions).tables.map Prod.snd ≠
      twoDevSessions.map (fun e => deviceRows e.2) := by
  decide

/-- C2 (amended): the evaluator emits one table per device, in device
iteration order, but each emitted table holds the cumulative rows of every
device evaluated so far — the previously evaluated devices' rows followed by
this device's rows in VRF-then-neighbor insertion order; the final
`results_table` is the concatenation of all devices' rows. -/
theorem c2_tables_cumulative (sessions : Sessions) :
    (checkBgp sessions).tables = cumTables [] sessions ∧
    (checkBgp sessions).rows = allRows sessions ∧
    (checkBgp sessions).tables.map Prod.fst = sessions.map Prod.fst := by
  refine ⟨checkBgp_tables_eq sessions, checkBgp_rows_eq sessions, ?_⟩
  rw [checkBgp_tables_eq sessions]
  exact cumTables_map_fst sessions []

/-- C5: a snapshot missing the `instance` key, the `default` instance, the
`vrf` substructure, or a VRF's `neighbor` substructure is treated as zero
neighbors: it contributes no rows and no failure-index entries, and the
(total) evaluation succeeds with a `Passed` outcome; a VRF with no
`neighbor` key contributes no neighbors. -/
theorem c5_defensive_missing_keys (d : String) (info : BgpInfo) :
    ((info.instTab = none ∨ dlookup (info.instTab.getD []) "default" = none ∨
        (pyGet (info.instTab.getD []) "default" ⟨none⟩).vrf = none) →
      deviceVrfs info = [] ∧ deviceRows info = [] ∧ deviceFailList info = []) ∧
    (∀ ve : String × VrfData, ve.2.neighbor = none → vrfNeighbors ve = []) ∧
    ((∀ ve, ve ∈ deviceVrfs info → ve.2.neighbor = none) →
      checkBgp [(d, info)] =
        { rows := [], tables := [(d, [])], failedDict := [], dump := none,
          outcome := Verdict.Passed }) := by
  have hvrfnone : ∀ ve : String × VrfData, ve.2.neighbor = none → vrfNeighbors ve = [] := by
    intro ve hve
    unfold vrfNeighbors
    rw [hve]
    rfl
  have hrun : deviceRows info = [] → deviceFailList info = [] →
      checkBgp [(d, info)] =
        { rows := [], tables := [(d, [])], failedDict := [], dump := none,
          outcome := Verdict.Passed } := by
    intro hrows hfail
    unfold checkBgp
    rw [List.foldl_cons, List.foldl_nil, stepDevice_spec]
    simp [hrows, hfail, insertFails]
  refine ⟨?_, hvrfnone, ?_⟩
  · intro h
    have hv : deviceVrfs info = [] := deviceVrfs_of_missing h
    refine ⟨hv, ?_, ?_⟩
    · unfold deviceRows
      rw [hv]
      rfl
    · unfold deviceFailList allNeighbors
      rw [hv]
      rfl
  · intro hall
    have hnone : ∀ ve ∈ deviceVrfs info, vrfNeighbors ve = [] :=
      fun ve hve => hvrfnone ve (hall ve hve)
    have hnbrs : allNeighbors info = [] := by
      unfold allNeighbors
      rw [List.flatMap_eq_nil_iff]
      exact hnone
    have hrows : deviceRows info = [] := by
      unfold deviceRows
      rw [List.flatMap_eq_nil_iff]
      intro ve hve
      rw [hnone ve hve]
      rfl
    have hfail : deviceFailList info = [] := by
      unfold deviceFailList
      rw [hnbrs]
      rfl
    exact hrun hrows hfail

/-- C5 witness: a snapshot with no `instance` key and a VRF with no
`neighbor` key both contribute zero neighbors, and the evaluation of such a
device completes with a `Passed` outcome, no rows and an empty failure
index. -/
theorem c5_defensive_missing_keys_witness :
    (deviceVrfs ⟨none⟩ = [] ∧ deviceRows ⟨none⟩ = [] ∧ deviceFailList ⟨none⟩ = []) ∧
    vrfNeighbors ("default", ⟨none⟩) = [] ∧
    checkBgp [("R1", (⟨none⟩ : BgpInfo))] =
      { rows := [], tables := [("R1", [])], failedDict := [], dump := none,
        outcome := Verdict.Passed } :=
  ⟨(c5_defensive_missing_keys "R1" ⟨none⟩).1 (Or.inl rfl),
   (c5_defensive_missing_keys "R1" ⟨none⟩).2.1 ("default", ⟨none⟩) rfl,
   (c5_defensive_missing_keys "R1" ⟨none⟩).2.2 (by decide)⟩

/-- C6: the final outcome is `Failed` exactly when the failure index is
nonempty (and then the whole failure index is dumped), `Passed` exactly when
it is empty (no dump); every neighbor of every collected device contributes
a row before the verdict is issued (no short-circuit), and an input with
zero neighbors in total yields `Passed` with an empty failure index. -/
theorem c6_final_outcome (s : Sessions) :
    ((checkBgp s).outcome = Verdict.Failed ↔ (checkBgp s).failedDict ≠ []) ∧
    ((checkBgp s).outcome = Verdict.Passed ↔ (checkBgp s).failedDict = []) ∧
    ((checkBgp s).failedDict ≠ [] → (checkBgp s).dump = some ((checkBgp s).failedDict)) ∧
    ((checkBgp s).failedDict = [] → (checkBgp s).dump = none) ∧
    (checkBgp s).rows.length = totalNbrCount s ∧
    (totalNbrCount s = 0 →
      (checkBgp s).outcome = Verdict.Passed ∧ (checkBgp s).failedDict = []) := by
  have hout := checkBgp_outcome_def s
  have hdump := checkBgp_dump_def s
  have hlen : (checkBgp s).rows.length = totalNbrCount s := by
    rw [checkBgp_rows_eq]
    exact allRows_length s
  have hzero : totalNbrCount s = 0 → (checkBgp s).failedDict = [] := by
    intro h
    have hall : ∀ e, e ∈ s → deviceFailList e.2 = [] := by
      intro e he
      unfold deviceFailList
      rw [totalNbrCount_zero h e he]
      rfl
    unfold checkBgp
    simpa using foldDevices_fd_stable s _ hall
  refine ⟨?_, ?_, ?_, ?_, hlen, ?_⟩
  · rw [hout]
    by_cases h : (checkBgp s).failedDict = []
    · simp [h]
    · simp [h]
  · rw [hout]
    by_cases h : (checkBgp s).failedDict = []
    · simp [h]
    · simp [h]
  · intro h
    rw [hdump, if_neg h]
  · intro h
    rw [hdump, if_pos h]
  · intro h
    have hfd := hzero h
    rw [hout, if_pos hfd]
    exact ⟨rfl, hfd⟩

/-- C6 witness: the empty input has zero neighbors and passes with an empty
failure index; on a concrete failing input the dump is exactly the failure
index. -/
theorem c6_final_outcome_witness :
    ((checkBgp ([] : Sessions)).outcome = Verdict.Passed ∧
      (checkBgp ([] : Sessions)).failedDict = []) ∧
    (checkBgp twoDevSessions).dump = some ((checkBgp twoDevSessions).failedDict) :=
  ⟨(c6_final_outcome []).2.2.2.2.2 rfl,
   (c6_final_outcome twoDevSessions).2.2.1 (by decide)⟩

/-- C4: after evaluation (device names unique, as Python dict keys are), the
failure index has an entry for a device iff that device has at least one
failing neighbor occurrence; devices absent from the input never appear; and
the recorded neighbor addresses of an entry are exactly the device's failing
neighbor addresses — no extras, no omissions. -/
theorem c4_failure_index_exact (s : Sessions) (hnd : (keysOf s).Nodup) :
    (∀ dev, dlookup s dev = none → dlookup (checkBgp s).failedDict dev = none) ∧
    (∀ dev info, dlookup s dev = some info →
      (((dlookup (checkBgp s).failedDict dev).isSome = true) ↔
        ∃ n, n ∈ allNeighbors info ∧ verdict n.2 = "Failed") ∧
      (∀ m, dlookup (checkBgp s).failedDict dev = some m →
        ∀ nbr, ((dlookup m nbr).isSome = true ↔
          ∃ q, (nbr, q) ∈ allNeighbors info ∧ verdict q = "Failed"))) := by
  rw [checkBgp_fd_eq hnd]
  constructor
  · intro dev h
    exact dlookup_failedOf_none h
  · intro dev info hdev
    have hlk := dlookup_failedOf_some hnd hdev
    constructor
    · rw [hlk]
      by_cases hemp : deviceFailList info = []
      · rw [if_pos hemp]
        simp only [Option.isSome_none, Bool.false_eq_true, false_iff]
        rintro ⟨n, hn, hv⟩
        exact (deviceFailList_ne_nil_iff info).2 ⟨n, hn, hv⟩ hemp
      · rw [if_neg hemp]
        simp only [Option.isSome_some, true_iff]
        exact (deviceFailList_ne_nil_iff info).1 hemp
    · intro m hm nbr
      rw [hlk] at hm
      by_cases hemp : deviceFailList info = []
      · rw [if_pos hemp] at hm
        exact absurd hm (by simp)
      · rw [if_neg hemp] at hm
        have hme : m = deviceFails info := by
          simpa using hm.symm
        rw [hme]
        exact dlookup_deviceFails_isSome

/-- C4 witness: on the concrete two-device input, `R2` (whose only neighbor
is idle) has a failure-index entry and its recorded neighbor set matches its
failing neighbors. -/
theorem c4_failure_index_exact_witness :
    ((dlookup (checkBgp twoDevSessions).failedDict "R2").isSome = true ↔
      ∃ n, n ∈ allNeighbors infoIdle ∧ verdict n.2 = "Failed") ∧
    ((dlookup [("10.0.0.2", nbrIdle)] "10.0.0.2").isSome = true ↔
      ∃ q, ("10.0.0.2", q) ∈ allNeighbors infoIdle ∧ verdict q = "Failed") :=
  ⟨((c4_failure_index_exact twoDevSessions (by decide)).2 "R2" infoIdle (by decide)).1,
   ((c4_failure_index_exact twoDevSessions (by decide)).2 "R2" infoIdle (by decide)).2
     [("10.0.0.2", nbrIdle)] (by decide) "10.0.0.2"⟩

/-- C10: when the same neighbor address occurs (and fails) under two
different VRFs of one device, the report table gets one row per occurrence,
but the failure index keeps a single entry for that address whose attributes
are those of the last-iterated occurrence. -/
theorem c10_duplicate_neighbor_last_wins (d : String) (info : BgpInfo) (nbr : String)
    (p1 p2 : Props)
    (hocc : (allNeighbors info).filter (fun e => e.1 == nbr) = [(nbr, p1), (nbr, p2)])
    (h1 : verdict p1 = "Failed") (h2 : verdict p2 = "Failed") :
    ((checkBgp [(d, info)]).rows.filter fun r => r.peer == nbr).length = 2 ∧
    ∃ m, dlookup (checkBgp [(d, info)]).failedDict d = some m ∧
      dlookup m nbr = some p2 ∧ m.filter (fun e => e.1 == nbr) = [(nbr, p2)] := by
  have hdf : (deviceFailList info).filter (fun e => e.1 == nbr) = [(nbr, p1), (nbr, p2)] := by
    unfold deviceFailList
    rw [List.filter_comm, hocc]
    simp [h1, h2]
  have hne : deviceFailList info ≠ [] := by
    intro hnil
    rw [hnil] at hdf
    simp at hdf
  have hlast : lookupLast (deviceFailList info) nbr = some p2 := by
    rw [lookupLast_eq_getLast_filter, hdf]
    rfl
  have hfd : (checkBgp [(d, info)]).failedDict = [(d, deviceFails info)] := by
    rw [checkBgp_fd_eq (by simp [keysOf])]
    rw [show ([(d, info)] : Sessions) = (d, info) :: [] from rfl, failedOf_cons]
    rw [if_neg hne]
    rfl
  constructor
  · rw [checkBgp_rows_eq]
    have hsingle : allRows [(d, info)] = deviceRows info := by
      simp [allRows]
    rw [hsingle, deviceRows_filter_peer, hocc]
    rfl
  · refine ⟨deviceFails info, ?_, ?_, ?_⟩
    · rw [hfd]
      simp [dlookup]
    · unfold deviceFails
      rw [dlookup_dictOfList]
      exact hlast
    · refine filter_key_of_nodup (nodup_keysOf_dictOfList _) ?_
      rw [dlookup_dictOfList]
      exact hlast

/-- C10 witness: device `R1` has `10.0.0.3` failing under VRFs `blue` (idle)
and `red` (active): two rows in the report, one failure-index entry whose
attributes are the `red` (last-iterated) occurrence's. -/
theorem c10_duplicate_neighbor_last_wins_witness :
    ((checkBgp [("R1", infoDup)]).rows.filter fun r => r.peer == "10.0.0.3").length = 2 ∧
    ∃ m, dlookup (checkBgp [("R1", infoDup)]).failedDict "R1" = some m ∧
      dlookup m "10.0.0.3" = some nbrAct ∧
      m.filter (fun e => e.1 == "10.0.0.3") = [("10.0.0.3", nbrAct)] :=
  c10_duplicate_neighbor_last_wins "R1" infoDup "10.0.0.3" nbrIdle nbrAct
    (by decide) (by decide) (by decide)

/-- C1 counterexample: in an inventory where `R1`'s connect raises and `R2`'s
would succeed, `R2` is never attempted — `self.failed` terminates the
subsection at `R1` — and no working set is passed onward, refuting the claim
that every remaining device is still attempted. -/
theorem c1_counterexample :
    cexInventory.map CDevice.name = ["R1", "R2"] ∧
    (connectStage cexInventory).attempted = ["R1"] ∧
    "R2" ∉ (connectStage cexInventory).attempted ∧
    (connectStage cexInventory).outcome =
      ConnOutcome.failedWith (connectFailMsg "R1" "simulated connection error") := by
  refine ⟨rfl, rfl, by decide, rfl⟩

/-- C1 (amended): a connection failure aborts the connect subsection: the
first device whose `connect()` raises is marked failed with a message
containing its identity and the error text, the devices before it (which
connected) and it are the only ones attempted, devices after it are never
attempted, and the working set is passed onward only when every device
connects — in which case it contains all devices in inventory order. -/
theorem c1_connect_failure_aborts :
    (∀ devs : List CDevice, (∀ x, x ∈ devs → x.connectErr = none) →
      connectStage devs =
        { attempted := devs.map CDevice.name, outcome := ConnOutcome.ok devs }) ∧
    (∀ (pre : List CDevice) (d : CDevice) (post : List CDevice) (err : String),
      (∀ x, x ∈ pre → x.connectErr = none) → d.connectErr = some err →
      (connectStage (pre ++ d :: post)).attempted = pre.map CDevice.name ++ [d.name] ∧
      (connectStage (pre ++ d :: post)).outcome =
        ConnOutcome.failedWith (connectFailMsg d.name err) ∧
      (∃ a b, connectFailMsg d.name err = a ++ d.name ++ b) ∧
      (∃ a b, connectFailMsg d.name err = a ++ err ++ b)) := by
  refine ⟨connectStage_all_ok, ?_⟩
  intro pre d post err hpre hd
  rw [connectStage_first_failure pre d post err hpre hd]
  refine ⟨rfl, rfl, ?_, ?_⟩
  · refine ⟨"Failed to establish connection to " ++ quoteS, quoteS ++ ": " ++ err, ?_⟩
    simp [connectFailMsg, String.append_assoc]
  · refine ⟨"Failed to establish connection to " ++ quoteS ++ d.name ++ quoteS ++ ": ", "", ?_⟩
    simp [connectFailMsg, String.append_empty, String.append_assoc]

/-- C1 amended witness: an all-good inventory yields the full working set;
an inventory failing at its second device attempts exactly the first two
devices and terminates with the failure message. -/
theorem c1_connect_failure_aborts_witness :
    connectStage [⟨"R1", none⟩] =
      { attempted := ["R1"], outcome := ConnOutcome.ok [⟨"R1", none⟩] } ∧
    (connectStage [⟨"R0", none⟩, ⟨"R1", some "simulated error"⟩, ⟨"R2", none⟩]).attempted =
      ["R0", "R1"] ∧
    (connectStage [⟨"R0", none⟩, ⟨"R1", some "simulated error"⟩, ⟨"R2", none⟩]).outcome =
      ConnOutcome.failedWith (connectFailMsg "R1" "simulated error") := by
  have h1 := c1_connect_failure_aborts.1 [⟨"R1", none⟩] (by decide)
  have h2 := c1_connect_failure_aborts.2 [⟨"R0", none⟩] ⟨"R1", some "simulated error"⟩
    [⟨"R2", none⟩] "simulated error" (by decide) rfl
  exact ⟨h1, h2.1, h2.2.1⟩

/-- C7: when the state-learning service yields no usable snapshot for some
device (all earlier devices having learned fine), that device is marked
failed with a message naming it, nothing is collected for it or any later
device — only the earlier devices' snapshots exist — and the run jumps
straight to cleanup: the evaluation stage is never reached. -/
theorem c7_learn_failure_fatal (pre : List TDevice) (d : TDevice) (post : List TDevice)
    (hpre : ∀ x, x ∈ pre → x.bgpInfo ≠ none) (hd : d.bgpInfo = none) :
    (learnStage (pre ++ d :: post)).1 =
      pre.filterMap (fun x => x.bgpInfo.map fun i => (x.name, i)) ∧
    (learnStage (pre ++ d :: post)).2 = some (learnFailMsg d.name) ∧
    (∃ a b, learnFailMsg d.name = a ++ d.name ++ b) ∧
    runTestcase (pre ++ d :: post) = none := by
  have hmain := learnStage_first_failure pre d post hpre hd
  refine ⟨by rw [hmain], by rw [hmain], ?_, ?_⟩
  · refine ⟨"Failed to learn BGP info from device ", "", ?_⟩
    simp [learnFailMsg, String.append_empty]
  · unfold runTestcase
    rw [hmain]

/-- C7 witness: learning fails at `R2`; only `R1`'s snapshot is collected,
`R3` is never learned, and `check_bgp` is not reached. -/
theorem c7_learn_failure_fatal_witness :
    (learnStage learnDevices).2 = some (learnFailMsg "R2") ∧
    runTestcase learnDevices = none ∧
    (learnStage learnDevices).1 = [("R1", infoEst)] := by
  have h := c7_learn_failure_fatal [⟨"R1", some infoEst⟩] ⟨"R2", none⟩
    [⟨"R3", some infoIdle⟩] (by decide) rfl
  exact ⟨h.2.1, h.2.2.2, by decide⟩
